import Mathlib

/-!
Shallow embedding of the MetaApi websocket transport/synchronization client
(`metaApiWebsocket.client.js`, the repository's core file) together with
proofs about its request-retry policy, packet queueing discipline and
synchronization event processing.

Conventions used throughout:
* JS objects acting as string-keyed dictionaries are modelled as association
  lists in insertion order (JS objects preserve insertion order for string
  keys, and the code iterates them with `Object.keys`).
* Wall-clock time (`Date.now()`) is an `Int` in milliseconds; the model lets
  time advance exactly by the explicit sleeps the code performs.
* Listener callbacks and collaborator notifications are not executed in the
  model; instead every notification the code issues is recorded as an
  `Effect` value, in the order the code issues them.
-/

namespace MetaApiWebsocket

/-- Association-list lookup, modelling reading a key of a JS object
(`obj[key]`, yielding `undefined` when absent). -/
def alGet {α β : Type} [DecidableEq α] : List (α × β) → α → Option β
  | [], _ => none
  | (k, v) :: rest, key => if k = key then some v else alGet rest key

/-- Association-list update, modelling `obj[key] = v` on a JS object: an
existing key keeps its position in insertion order, a new key is appended. -/
def alSet {α β : Type} [DecidableEq α] : List (α × β) → α → β → List (α × β)
  | [], key, v => [(key, v)]
  | (k, w) :: rest, key, v =>
    if k = key then (key, v) :: rest else (k, w) :: alSet rest key v

/-- Association-list removal, modelling `delete obj[key]`. -/
def alErase {α β : Type} [DecidableEq α] : List (α × β) → α → List (α × β)
  | [], _ => []
  | (k, w) :: rest, key => if k = key then rest else (k, w) :: alErase rest key

/-! ## Request dispatcher (`_rpcRequest`, `_makeRequest`, `_convertError`)

Embeds the retry policy of `_rpcRequest` (metaApiWebsocket.client.js lines
1125-1210), the correlation/timeout behavior of `_makeRequest` (lines
1212-1231) and the error conversion `_convertError` (lines 1234-1255). -/

/-- Retry options of the client constructor: `retries` (default 5),
`minRetryDelayInSeconds` (default 1), `maxRetryDelayInSeconds` (default 30). -/
structure RetryOpts where
  retries : Nat
  minRetryDelayInSeconds : Nat
  maxRetryDelayInSeconds : Nat
deriving DecidableEq, Repr

/-- The defaults validated in the constructor. -/
def defaultRetryOpts : RetryOpts := ⟨5, 1, 30⟩

/-- The `error` field of an inbound `processingError` payload, as produced by
the server. A `TooManyRequestsError` carries `metadata.recommendedRetryTime`
(modelled directly as epoch milliseconds). -/
inductive ServerErrorKind
  | validationError
  | notFoundError
  | notSynchronizedError
  | timeoutError
  | notAuthenticatedError
  | tradeError
  | unauthorizedError
  | tooManyRequestsError (recommendedRetryTime : Int)
  | otherError
deriving DecidableEq, Repr

/-- The typed error object the client constructs from a `processingError`
payload (or from its own request timeout). Modelled from the spec: the error
classes themselves (`errorHandler.js`, `timeoutError.js`,
`notConnectedError.js`, …) are not part of src/, only their conversion in
`_convertError` and the spec's error taxonomy (§7) are; each class's `name`
attribute is its class name, as the repository's unit tests assert
(`err.name.should.equal('NotConnectedError')` and similar). -/
inductive ClientError
  | validationError
  | notFoundError
  | notSynchronizedError
  | timeoutError
  | notConnectedError
  | tradeError
  | unauthorizedError
  | tooManyRequestsError (recommendedRetryTime : Int)
  | internalError
deriving DecidableEq, Repr

/-- `_convertError` (lines 1234-1255): maps the server's `error` string to a
typed error object. Note that a server `NotAuthenticatedError` is converted
to a `NotConnectedError`, and any unrecognized kind to an `InternalError`. -/
def convertError : ServerErrorKind → ClientError
  | .validationError => .validationError
  | .notFoundError => .notFoundError
  | .notSynchronizedError => .notSynchronizedError
  | .timeoutError => .timeoutError
  | .notAuthenticatedError => .notConnectedError
  | .tradeError => .tradeError
  | .unauthorizedError => .unauthorizedError
  | .tooManyRequestsError t => .tooManyRequestsError t
  | .otherError => .internalError

/-- The `name` attribute of each error object (the JS class name). -/
def errName : ClientError → String
  | .validationError => "ValidationError"
  | .notFoundError => "NotFoundError"
  | .notSynchronizedError => "NotSynchronizedError"
  | .timeoutError => "TimeoutError"
  | .notConnectedError => "NotConnectedError"
  | .tradeError => "TradeError"
  | .unauthorizedError => "UnauthorizedError"
  | .tooManyRequestsError _ => "TooManyRequestsError"
  | .internalError => "InternalError"

/-- The list of error names `_rpcRequest` treats as transient (line 1196). -/
def retryableNames : List String :=
  ["NotSynchronizedError", "TimeoutError", "NotAuthenticatedError", "InternalError"]

/-- What the transport does with one sent request: answer with a `response`
event, answer with a `processingError` event, or stay silent until the
`_makeRequest` timeout timer fires. -/
inductive AttemptOutcome
  | response
  | processingError (kind : ServerErrorKind)
  | timeoutFired
deriving DecidableEq, Repr

/-- How the promise returned by `_makeRequest` (lines 1212-1231) settles for
one attempt: the race between the pending-request resolve/reject (fed by the
`response` / `processingError` socket handlers, the latter through
`_convertError`) and the timeout timer, which rejects with a `TimeoutError`. -/
def makeRequestResult : AttemptOutcome → Except ClientError Unit
  | .response => .ok ()
  | .processingError kind => .error (convertError kind)
  | .timeoutFired => .error .timeoutError

/-- The inner `while` of the `TooManyRequestsError` branch (lines 1180-1186):
starting from `calcRetryCounter = c` it runs `k = retries - c` iterations,
first incrementing the counter and then adding
`min(2^counter * minRetryDelayInSeconds, maxRetryDelayInSeconds) * 1000`. -/
def calcRequestTimeAux (minDelay maxDelay : Nat) : Nat → Nat → Nat
  | _, 0 => 0
  | c, k + 1 =>
    min (2 ^ (c + 1) * minDelay) maxDelay * 1000 + calcRequestTimeAux minDelay maxDelay (c + 1) k

/-- The remaining retry budget `calcRequestTime` in milliseconds computed by
`_rpcRequest` when it catches a `TooManyRequestsError` with `retryCounter`
retries already consumed. -/
def calcRequestTime (opts : RetryOpts) (retryCounter : Nat) : Nat :=
  calcRequestTimeAux opts.minRetryDelayInSeconds opts.maxRetryDelayInSeconds
    retryCounter (opts.retries - retryCounter)

/-- The backoff delay in milliseconds slept before the retry that follows
`retryCounter` consumed retries (line 1199). -/
def retryDelayMs (opts : RetryOpts) (retryCounter : Nat) : Nat :=
  min (2 ^ retryCounter * opts.minRetryDelayInSeconds) opts.maxRetryDelayInSeconds * 1000

/-- How a dispatched request ends. `noMoreOutcomes` is a modelling artifact:
the finite interaction script ran out while the code would have sent again. -/
inductive RpcOutcome
  | ok
  | failed (e : ClientError)
  | noMoreOutcomes
deriving DecidableEq, Repr

/-- Observable trace of one `_rpcRequest` call: how many times the request
was emitted on the socket, the sleeps performed (in milliseconds, in order),
and how the returned promise settled. -/
structure RpcTrace where
  sends : Nat
  sleepsMs : List Int
  outcome : RpcOutcome
deriving DecidableEq, Repr

/-- The retry loop of `_rpcRequest` (lines 1174-1209) for request types other
than `trade`/`subscribe`. Arguments: the retry options, whether
`_socketInstancesByAccounts[accountId]` is still defined when checked after
the failure that consumed retry number `k` (the `assigned` function, line
1205), the current wall clock, the retries consumed so far, and the script
of transport outcomes for the successive sends. Each recursive call consumes
one script entry; time advances by exactly the sleeps performed. -/
def rpcRequestLoop (opts : RetryOpts) (assigned : Nat → Bool) :
    Int → Nat → List AttemptOutcome → RpcTrace
  | _, _, [] => ⟨0, [], .noMoreOutcomes⟩
  | now, retryCounter, o :: rest =>
    match makeRequestResult o with
    | .ok _ => ⟨1, [], .ok⟩
    | .error e =>
      match e with
      | .tooManyRequestsError retryTime =>
        if now + (calcRequestTime opts retryCounter : Int) > retryTime ∧
            retryCounter < opts.retries then
          let sleeps : List Int := if now < retryTime then [retryTime - now] else []
          let now' : Int := if now < retryTime then retryTime else now
          if assigned retryCounter then
            let t := rpcRequestLoop opts assigned now' (retryCounter + 1) rest
            ⟨t.sends + 1, sleeps ++ t.sleepsMs, t.outcome⟩
          else ⟨1, sleeps, .failed e⟩
        else ⟨1, [], .failed e⟩
      | _ =>
        if errName e ∈ retryableNames ∧ retryCounter < opts.retries then
          let d : Int := retryDelayMs opts retryCounter
          if assigned retryCounter then
            let t := rpcRequestLoop opts assigned (now + d) (retryCounter + 1) rest
            ⟨t.sends + 1, d :: t.sleepsMs, t.outcome⟩
          else ⟨1, [d], .failed e⟩
        else ⟨1, [], .failed e⟩

/-- The dispatch decision of `_rpcRequest` (lines 1168-1177): requests of
type `trade` or `subscribe` perform exactly one `_makeRequest` and return its
promise directly, every other type enters the retry loop with
`retryCounter = 0`. -/
def rpcRequest (opts : RetryOpts) (assigned : Nat → Bool) (now : Int)
    (requestType : String) (script : List AttemptOutcome) : RpcTrace :=
  if requestType = "trade" ∨ requestType = "subscribe" then
    match script with
    | [] => ⟨0, [], .noMoreOutcomes⟩
    | o :: _ =>
      match makeRequestResult o with
      | .ok _ => ⟨1, [], .ok⟩
      | .error e => ⟨1, [], .failed e⟩
  else
    rpcRequestLoop opts assigned now 0 script

/-- The transport outcomes whose resulting error carries one of the names in
`retryableNames`: a server `NotSynchronizedError` or `TimeoutError`, an
unrecognized server error (converted to `InternalError`), and the local
request timeout (a `TimeoutError`). A server `NotAuthenticatedError` is NOT
among them because `_convertError` turns it into a `NotConnectedError`. -/
def transientOutcomes : List AttemptOutcome :=
  [.processingError .notSynchronizedError, .processingError .timeoutError,
   .processingError .otherError, .timeoutFired]

/-- The error with which a single attempt fails, if it fails. -/
def attemptError : AttemptOutcome → Option ClientError
  | .response => none
  | .processingError k => some (convertError k)
  | .timeoutFired => some .timeoutError

/-! ## Transport pool routing state (`subscribedAccountIds`,
`getAssignedAccounts`, `lockSocketInstance`, route selection in
`_rpcRequest`) -/

/-- `instanceId.split(':')[0]` — the account id component of a connected-host
key. -/
def firstComponent (s : String) : String :=
  String.mk (s.data.takeWhile (fun c => c != ':'))

/-- `subscribedAccountIds` (lines 124-135): walks the keys of
`_connectedHosts` in insertion order, extracts each key's account id, and
collects (without duplicates) those assigned in `_socketInstancesByAccounts`
to the given socket instance index (to any instance when the index argument
is `undefined`, here `none`). -/
def subscribedAccountIds (connectedHosts : List (String × String))
    (byAccounts : List (String × Nat)) (socketInstanceIndex : Option Nat) : List String :=
  connectedHosts.foldl (fun connectedIds kv =>
    let accountId := firstComponent kv.1
    if accountId ∉ connectedIds ∧ (alGet byAccounts accountId).isSome ∧
        (alGet byAccounts accountId = socketInstanceIndex ∨ socketInstanceIndex = none) then
      connectedIds ++ [accountId]
    else connectedIds) []

/-- `getAssignedAccounts` (lines 153-161): the account ids mapped to the
given instance index in `_socketInstancesByAccounts`. -/
def getAssignedAccounts (byAccounts : List (String × Nat)) (socketInstanceIndex : Nat) :
    List String :=
  (byAccounts.filter (fun kv => kv.2 = socketInstanceIndex)).map (fun kv => kv.1)

/-- A per-instance subscribe lock as stored by `lockSocketInstance`
(lines 182-188): the server's recommended retry time (epoch ms), the
`TooManyRequestsError` metadata type, and the instance's subscribed-account
count observed when the lock was set. -/
structure SubscribeLock where
  recommendedRetryTime : Int
  lockType : String
  lockedAtAccounts : Nat
deriving DecidableEq, Repr

/-- The two `continue` guards of the route-selection loop in `_rpcRequest`
(lines 1139-1150): an instance with a `LIMIT_ACCOUNT_SUBSCRIPTIONS_PER_USER_PER_SERVER`
lock is skipped when the lock is unexpired OR the instance's
subscribed-account count has not dropped below the recorded count; one with a
`LIMIT_ACCOUNT_SUBSCRIPTIONS_PER_SERVER` lock is skipped when the lock is
unexpired AND the count has not dropped. -/
def instanceSkipped (now : Int) (ch : List (String × String)) (ba : List (String × Nat))
    (index : Nat) (lock : Option SubscribeLock) : Bool :=
  match lock with
  | none => false
  | some l =>
    (l.lockType == "LIMIT_ACCOUNT_SUBSCRIPTIONS_PER_USER_PER_SERVER" &&
      (decide (l.recommendedRetryTime > now) ||
        decide ((subscribedAccountIds ch ba (some index)).length ≥ l.lockedAtAccounts))) ||
    (l.lockType == "LIMIT_ACCOUNT_SUBSCRIPTIONS_PER_SERVER" &&
      decide (l.recommendedRetryTime > now) &&
      decide ((subscribedAccountIds ch ba (some index)).length ≥ l.lockedAtAccounts))

/-- The `for` loop of `_rpcRequest` over socket instances (lines 1136-1155),
with `index` the index of the first element of `locks`: skipped instances are
passed over; the first remaining instance whose assigned-account count is
under the per-instance cap is selected. -/
def routeSelectFrom (now : Int) (maxAccounts : Nat) (ch : List (String × String))
    (ba : List (String × Nat)) : Nat → List (Option SubscribeLock) → Option Nat
  | _, [] => none
  | index, lock :: rest =>
    if instanceSkipped now ch ba index lock then
      routeSelectFrom now maxAccounts ch ba (index + 1) rest
    else if (getAssignedAccounts ba index).length < maxAccounts then some index
    else routeSelectFrom now maxAccounts ch ba (index + 1) rest

/-- Route selection for an account with no existing assignment: the loop over
all socket instances starting at index 0; `none` means a new instance is
created (`connect()` is called and the account assigned to the new index). -/
def routeSelect (now : Int) (maxAccounts : Nat) (ch : List (String × String))
    (ba : List (String × Nat)) (locks : List (Option SubscribeLock)) : Option Nat :=
  routeSelectFrom now maxAccounts ch ba 0 locks

/-- An instance the loop can select: not skipped by its lock and under the
per-instance account cap. -/
def eligibleInstance (now : Int) (maxAccounts : Nat) (ch : List (String × String))
    (ba : List (String × Nat)) (index : Nat) (lock : Option SubscribeLock) : Bool :=
  !(instanceSkipped now ch ba index lock) &&
    decide ((getAssignedAccounts ba index).length < maxAccounts)

/-- The skip rule exactly as the specification words it, for comparison with
`instanceSkipped`: skip when "the lock has not expired AND the
subscribed-account count has not dropped below the count observed when the
lock was set", with no distinction between lock types. -/
def specSkipRule (now : Int) (subscribedCount : Nat) (lock : Option SubscribeLock) : Bool :=
  match lock with
  | none => false
  | some l =>
    decide (l.recommendedRetryTime > now) && decide (subscribedCount ≥ l.lockedAtAccounts)

/-! ## `close()` (lines 344-360) -/

/-- One socket instance dictionary as created by `connect` (lines 205-217),
restricted to the fields the modelled operations read: the `connected` flag,
the keys of the pending `requestResolves` map, and the session id. -/
structure SocketInstance where
  connected : Bool
  requestResolves : List String
  sessionId : String
deriving DecidableEq, Repr

/-- The client fields touched by `close()`: the socket instance list, the
account-to-instance map, the synchronization and latency listener
registries, and whether the packet orderer is running. -/
structure WebsocketClientState where
  socketInstances : List SocketInstance
  socketInstancesByAccounts : List (String × Nat)
  synchronizationListeners : List (String × List Nat)
  latencyListeners : List Nat
  packetOrdererStarted : Bool
deriving DecidableEq, Repr

/-- A recorded `requestResolve.reject(new Error(message))` call. -/
structure Rejection where
  requestId : String
  message : String
deriving DecidableEq, Repr

/-- The per-instance body of `close()` (lines 345-354): a connected instance
is marked disconnected, every pending request is rejected with
`'MetaApi connection closed'`, and its pending-request map is emptied; a
disconnected instance is left untouched. -/
def closeInstance (inst : SocketInstance) : SocketInstance × List Rejection :=
  if inst.connected then
    ({ inst with connected := false, requestResolves := [] },
     inst.requestResolves.map (fun rid => ⟨rid, "MetaApi connection closed"⟩))
  else (inst, [])

/-- `close()` (lines 344-360): runs `closeInstance` over every instance
(collecting the rejections in order), then clears the listener registries,
the account map and the instance list, and stops the packet orderer. -/
def close (s : WebsocketClientState) : WebsocketClientState × List Rejection :=
  ({ socketInstances := [], socketInstancesByAccounts := [],
     synchronizationListeners := [], latencyListeners := [],
     packetOrdererStarted := false },
   s.socketInstances.flatMap (fun inst => (closeInstance inst).2))

/-! ## Synchronization event processor (`_processSynchronizationPacket`,
lines 1457-1936) -/

/-- An inbound synchronization packet, restricted to the fields the modelled
branches read. `hasAccountInformation` models the truthiness of
`data.accountInformation` (the snapshot contents themselves are opaque). -/
structure SyncPacket where
  ptype : String
  accountId : String
  instanceIndex : Option Nat
  host : Option String
  sessionId : Option String
  replicas : Option Nat
  synchronizationId : Option String
  sequenceNumber : Option Nat
  hasAccountInformation : Bool
  positionsUpdated : Option Bool
  ordersUpdated : Option Bool
  specificationsUpdated : Option Bool
deriving DecidableEq, Repr

/-- The record stored in `_synchronizationFlags` by a `synchronizationStarted`
packet (lines 1546-1550). -/
structure SyncFlags where
  accountId : String
  positionsUpdated : Bool
  ordersUpdated : Bool
deriving DecidableEq, Repr

/-- Every notification `_processSynchronizationPacket` (and the silence
timer it arms) issues to listeners and collaborators, in issue order.
Listener callbacks are identified by a numeric listener id. -/
inductive Effect
  | resetDisconnectTimer (instanceId : String)
  | cancelDisconnectTimer (instanceId : String)
  | onConnected (listener : Nat) (instanceIndex : String) (replicas : Option Nat)
  | cancelSubscribe (key : String)
  | subscriptionOnTimeout (accountId : String) (instanceNumber : Nat)
  | subscriptionOnDisconnected (accountId : String) (instanceNumber : Nat)
  | onDisconnected (listener : Nat) (instanceIndex : String)
  | onStreamClosed (listener : Nat) (instanceIndex : String)
  | packetOrdererStreamClosed (instanceId : String)
  | throttlerRemoveId (accountId : String) (instanceNumber : Nat) (host : Option String)
  | onSynchronizationStarted (listener : Nat) (instanceIndex : String)
      (specificationsUpdated positionsUpdated ordersUpdated : Bool)
  | onAccountInformationUpdated (listener : Nat) (instanceIndex : String)
  | onPositionsSynchronized (listener : Nat) (synchronizationId : Option String)
  | onPendingOrdersSynchronized (listener : Nat) (synchronizationId : Option String)
deriving DecidableEq, Repr

/-- The client state the modelled processor branches read and write:
`_connectedHosts` (key `accountId:instanceNumber:host`, value the raw
`data.host` of the `authenticated` packet, which JS may leave `undefined`),
`_synchronizationFlags` (keyed by the raw `data.synchronizationId`), and
`_synchronizationListeners` (listener ids per account). -/
structure ProcessorState where
  connectedHosts : List (String × Option String)
  synchronizationFlags : List (Option String × SyncFlags)
  synchronizationListeners : List (String × List Nat)
deriving DecidableEq, Repr

/-- `const instanceNumber = data.instanceIndex || 0` (line 1463). -/
def instanceNumberOf (pkt : SyncPacket) : Nat := pkt.instanceIndex.getD 0

/-- The string JS renders for `data.host || 0` inside the key templates. -/
def hostStringOf (pkt : SyncPacket) : String := pkt.host.getD "0"

/-- `instanceId = accountId + ':' + instanceNumber + ':' + (host || 0)`
(line 1464). -/
def instanceIdOf (pkt : SyncPacket) : String :=
  pkt.accountId ++ ":" ++ toString (instanceNumberOf pkt) ++ ":" ++ hostStringOf pkt

/-- `instanceIndex = instanceNumber + ':' + (host || 0)` (line 1465). -/
def instanceIndexStrOf (pkt : SyncPacket) : String :=
  toString (instanceNumberOf pkt) ++ ":" ++ hostStringOf pkt

/-- The registered synchronization listeners for an account
(`this._synchronizationListeners[accountId] || []`). -/
def listenersFor (st : ProcessorState) (accountId : String) : List Nat :=
  (alGet st.synchronizationListeners accountId).getD []

/-- JS `String.prototype.startsWith`, on the character lists. -/
def strStartsWith (s pre : String) : Bool := pre.data.isPrefixOf s.data

/-- `isOnlyActiveInstance` (lines 1467-1471): the keys of `_connectedHosts`
whose text starts with `accountId + ':' + instanceNumber` (note: no trailing
separator), and the test that there is none or exactly this stream's key. -/
def isOnlyActiveInstance (st : ProcessorState) (accountId : String) (instanceNumber : Nat)
    (instanceId : String) : Bool :=
  let activeInstanceIds := (st.connectedHosts.map (fun kv => kv.1)).filter
    (fun key => strStartsWith key (accountId ++ ":" ++ toString instanceNumber))
  activeInstanceIds.isEmpty ||
    (activeInstanceIds.length == 1 && activeInstanceIds.headD "" == instanceId)

/-- The `onDisconnected` closure (lines 1490-1524), parameterised like the
code by `isTimeout` and the packet fields in scope. Runs only for a stream
whose `_connectedHosts` entry is truthy (a present, non-`undefined` host;
empty-string hosts, falsy in JS, are not modelled): when the stream is the
only active one for the key prefix it notifies the subscription manager (on
the non-timeout path) and every listener's `onDisconnected`; otherwise it
drops the stream's packet-orderer state, its synchronization-throttler ids
(when the owning socket instance exists, `socketSession` being its session
id), and notifies every listener's `onStreamClosed`. In both cases the
stream's `_connectedHosts` entry is removed. -/
def onDisconnectedHelper (st : ProcessorState) (socketSession : Option String)
    (accountId : String) (instanceNumber : Nat) (host : Option String)
    (isTimeout : Bool) : ProcessorState × List Effect :=
  let instanceId := accountId ++ ":" ++ toString instanceNumber ++ ":" ++ host.getD "0"
  let instanceIndex := toString instanceNumber ++ ":" ++ host.getD "0"
  match alGet st.connectedHosts instanceId with
  | some (some _) =>
    if isOnlyActiveInstance st accountId instanceNumber instanceId then
      ({ st with connectedHosts := alErase st.connectedHosts instanceId },
       (if isTimeout then [] else [.subscriptionOnDisconnected accountId instanceNumber]) ++
         (listenersFor st accountId).map (fun l => .onDisconnected l instanceIndex))
    else
      ({ st with connectedHosts := alErase st.connectedHosts instanceId },
       [.packetOrdererStreamClosed instanceId] ++
         (if socketSession.isSome then
           [.throttlerRemoveId accountId instanceNumber host] else []) ++
         (listenersFor st accountId).map (fun l => .onStreamClosed l instanceIndex))
  | _ => (st, [])

/-- The `authenticated` branch (lines 1525-1540): the disconnect timer is
reset unconditionally; the connected-host entry, the `onConnected`
notifications and the subscribe-retry cancellation happen only when the
packet carries no `sessionId` or the owning socket instance exists and its
session id matches. -/
def processAuthenticated (st : ProcessorState) (socketSession : Option String)
    (pkt : SyncPacket) : ProcessorState × List Effect :=
  let instanceId := instanceIdOf pkt
  if pkt.sessionId = none ∨ (socketSession.isSome ∧ pkt.sessionId = socketSession) then
    ({ st with connectedHosts := alSet st.connectedHosts instanceId pkt.host },
     [.resetDisconnectTimer instanceId] ++
       (listenersFor st pkt.accountId).map
         (fun l => .onConnected l (instanceIndexStrOf pkt) pkt.replicas) ++
       [.cancelSubscribe (pkt.accountId ++ ":" ++ toString (instanceNumberOf pkt))])
  else (st, [.resetDisconnectTimer instanceId])

/-- The `disconnected` branch (lines 1541-1543): cancel the disconnect timer
and run the `onDisconnected` closure with `isTimeout = false`. -/
def processDisconnected (st : ProcessorState) (socketSession : Option String)
    (pkt : SyncPacket) : ProcessorState × List Effect :=
  let r := onDisconnectedHelper st socketSession pkt.accountId (instanceNumberOf pkt)
    pkt.host false
  (r.1, Effect.cancelDisconnectTimer (instanceIdOf pkt) :: r.2)

/-- The callback armed by `resetDisconnectTimer` (lines 1479-1487), firing
60 s after the stream's last packet: notify the subscription manager of the
timeout when the stream is the only active one for the key prefix, then run
the `onDisconnected` closure with `isTimeout = true` (queued as an account
event; the model runs it in place). -/
def silenceTimerFired (st : ProcessorState) (socketSession : Option String)
    (accountId : String) (instanceNumber : Nat) (host : Option String) :
    ProcessorState × List Effect :=
  let instanceId := accountId ++ ":" ++ toString instanceNumber ++ ":" ++ host.getD "0"
  let pre := if isOnlyActiveInstance st accountId instanceNumber instanceId then
      [Effect.subscriptionOnTimeout accountId instanceNumber] else []
  let r := onDisconnectedHelper st socketSession accountId instanceNumber host true
  (r.1, pre ++ r.2)

/-- The `synchronizationStarted` branch (lines 1544-1564): records in
`_synchronizationFlags` which of positions/orders the server claims changed
(absent fields default to `true`) under the packet's synchronization id, and
notifies every listener's `onSynchronizationStarted`. -/
def processSynchronizationStarted (st : ProcessorState) (pkt : SyncPacket) :
    ProcessorState × List Effect :=
  let flags : SyncFlags :=
    ⟨pkt.accountId, pkt.positionsUpdated.getD true, pkt.ordersUpdated.getD true⟩
  ({ st with
      synchronizationFlags := alSet st.synchronizationFlags pkt.synchronizationId flags },
   (listenersFor st pkt.accountId).map (fun l =>
     .onSynchronizationStarted l (instanceIndexStrOf pkt) (pkt.specificationsUpdated.getD true)
       (pkt.positionsUpdated.getD true) (pkt.ordersUpdated.getD true)))

/-- The `accountInformation` branch (lines 1565-1588): when the packet
carries account information, each listener receives
`onAccountInformationUpdated`, then — when `_synchronizationFlags` holds a
record for the packet's synchronization id — `onPositionsSynchronized` if
positions were recorded as not updated and `onPendingOrdersSynchronized` if
orders were; afterwards the record is deleted. A packet without account
information does nothing. -/
def processAccountInformation (st : ProcessorState) (pkt : SyncPacket) :
    ProcessorState × List Effect :=
  if pkt.hasAccountInformation then
    ({ st with synchronizationFlags := alErase st.synchronizationFlags pkt.synchronizationId },
     (listenersFor st pkt.accountId).flatMap (fun l =>
       [Effect.onAccountInformationUpdated l (instanceIndexStrOf pkt)] ++
         (match alGet st.synchronizationFlags pkt.synchronizationId with
          | some flags =>
            (if flags.positionsUpdated then [] else
              [Effect.onPositionsSynchronized l pkt.synchronizationId]) ++
              (if flags.ordersUpdated then [] else
                [Effect.onPendingOrdersSynchronized l pkt.synchronizationId])
          | none => [])))
  else (st, [])

/-- The branch dispatch of `_processSynchronizationPacket` for the packet
types the verified claims involve; the remaining branches (deals, orders,
positions, market data, status, …) neither read nor write the state modelled
here and are outside the claims, so they are modelled as effect-free. -/
def processSynchronizationPacket (st : ProcessorState) (socketSession : Option String)
    (pkt : SyncPacket) : ProcessorState × List Effect :=
  if pkt.ptype = "authenticated" then processAuthenticated st socketSession pkt
  else if pkt.ptype = "disconnected" then processDisconnected st socketSession pkt
  else if pkt.ptype = "synchronizationStarted" then processSynchronizationStarted st pkt
  else if pkt.ptype = "accountInformation" then processAccountInformation st pkt
  else (st, [])

/-! ## Packet queueing (`queuePacket`, `_callAccountEvents`, lines
1049-1092) and the inbound `synchronization` handler of `connect`
(lines 319-337) -/

/-- The buffering key of the packet orderer: account id and instance
number. -/
def packetOrdererKey (pkt : SyncPacket) : String :=
  pkt.accountId ++ ":" ++ toString (instanceNumberOf pkt)

/-- Extracts from a buffer the packet carrying sequence number `n`, if
present, together with the remaining buffer. -/
def takePacketWithSeq (n : Nat) : List SyncPacket → Option (SyncPacket × List SyncPacket)
  | [] => none
  | p :: rest =>
    if p.sequenceNumber = some n then some (p, rest)
    else match takePacketWithSeq n rest with
      | some (q, rest2) => some (q, p :: rest2)
      | none => none

/-- Releases from a buffer the maximal run of consecutively numbered packets
starting at the expected number, returning the released packets in order,
the next expected number, and the remaining buffer. The fuel (the buffer
length at the call site) bounds the number of releases. -/
def releaseReady : Nat → List SyncPacket → Nat → List SyncPacket × Nat × List SyncPacket
  | n, buf, 0 => ([], n, buf)
  | n, buf, fuel + 1 =>
    match takePacketWithSeq n buf with
    | none => ([], n, buf)
    | some (p, rest) =>
      let r := releaseReady (n + 1) rest fuel
      (p :: r.1, r.2.1, r.2.2)

/-- Modelled from the spec: the Packet Orderer's buffering state
(`packetOrderer.js` is not part of src/; §4.3 of the spec describes the
component): the next expected sequence number and the waiting packets, per
(account, instance) key. -/
structure OrdererState where
  expectedByKey : List (String × Nat)
  bufferByKey : List (String × List SyncPacket)
deriving DecidableEq, Repr

/-- Modelled from the spec: `restoreOrder` of the Packet Orderer
(`packetOrderer.js` is not part of src/). Per §4.3: packets without a
sequence number pass through immediately; packets with one are buffered per
(accountId, instanceIndex) and released only once all lower sequence numbers
for that key have been released (numbers taken to start at 0 per key; the
bounded wait window and reconnect flushing are not needed by the claims).
Packets are returned exactly as submitted, never altered. -/
def restoreOrder (st : OrdererState) (pkt : SyncPacket) : OrdererState × List SyncPacket :=
  match pkt.sequenceNumber with
  | none => (st, [pkt])
  | some _ =>
    let key := packetOrdererKey pkt
    let expected := (alGet st.expectedByKey key).getD 0
    let buf := (alGet st.bufferByKey key).getD [] ++ [pkt]
    let r := releaseReady expected buf buf.length
    ({ expectedByKey := alSet st.expectedByKey key r.2.1,
       bufferByKey := alSet st.bufferByKey key r.2.2 }, r.1)

/-- The `synchronization` socket handler installed by `connect` (lines
319-337): a packet carrying a synchronization id that the owning instance
throttler's `activeSynchronizationIds` does not contain is relabelled to
type `noop` before being queued; all other packets are queued unchanged. -/
def markPacket (activeSynchronizationIds : List String) (pkt : SyncPacket) : SyncPacket :=
  match pkt.synchronizationId with
  | none => pkt
  | some sid =>
    if sid ∈ activeSynchronizationIds then pkt else { pkt with ptype := "noop" }

/-- A point in a handler's execution: `_processSynchronizationPacket` for a
packet beginning, or its promise settling. -/
inductive HandlerEv
  | hstart (pkt : SyncPacket)
  | hfinish (pkt : SyncPacket)
deriving DecidableEq, Repr

/-- The queueing state of one account: `queue` is
`_eventQueues[accountId]`, `draining` whether that key exists (equivalently,
whether a `_callAccountEvents` loop is running), `running` whether that loop
is currently awaiting the head handler, `trace` the begin/settle history of
handler executions, and `arrivals` the ghost list of every packet ever
queued for the account, in order. -/
structure AccountQueueState where
  queue : List SyncPacket
  draining : Bool
  running : Bool
  trace : List HandlerEv
  arrivals : List SyncPacket
deriving DecidableEq, Repr

/-- `queuePacket` (lines 1049-1064) for one account: the inbound packet runs
through the orderer, `noop`-typed packets are filtered out of the result,
and — when sequential processing is enabled and the inbound packet carries a
sequence number — the surviving packets are appended to the account's event
queue (a drain starting if none was running); otherwise they are processed
immediately, bypassing the queue. Returns the new orderer state, the new
queue state, and the immediately-processed packets. -/
def queuePacket (sequentialProcessing : Bool) (ord : OrdererState)
    (s : AccountQueueState) (pkt : SyncPacket) :
    OrdererState × AccountQueueState × List SyncPacket :=
  let r := restoreOrder ord pkt
  let packets := r.2.filter (fun p => p.ptype ≠ "noop")
  if sequentialProcessing ∧ pkt.sequenceNumber ≠ none then
    if s.draining then
      (r.1, { s with queue := s.queue ++ packets, arrivals := s.arrivals ++ packets }, [])
    else
      (r.1,
       { s with
          queue := packets
          draining := true
          arrivals := s.arrivals ++ packets }, [])
  else (r.1, s, packets)

/-- The events the single-threaded scheduler can interleave: a packet
arrival, the drain loop starting the head handler
(`await this._eventQueues[accountId][0]()` beginning), the awaited handler
settling followed by the `shift()`, and the drain loop exiting and deleting
the queue key. -/
inductive QueueStep
  | arrive (pkt : SyncPacket)
  | startHandler
  | finishHandler
  | finishDrain

/-- The queueing machinery's full state: the orderer, the account queue, and
the ghost list of packets processed immediately (outside the queue). -/
structure ClientQueueState where
  orderer : OrdererState
  acct : AccountQueueState
  processedNow : List SyncPacket
deriving DecidableEq, Repr

/-- One scheduler step. A step whose guard does not hold leaves the state
unchanged (the scheduler cannot take it); `_callAccountEvents` (lines
1084-1092) only starts the next handler when the previous await settled, so
`startHandler` requires a drain to be running and no handler pending. -/
def queueStep (sequentialProcessing : Bool) (s : ClientQueueState) :
    QueueStep → ClientQueueState
  | .arrive pkt =>
    let r := queuePacket sequentialProcessing s.orderer s.acct pkt
    { orderer := r.1, acct := r.2.1, processedNow := s.processedNow ++ r.2.2 }
  | .startHandler =>
    match s.acct.queue with
    | [] => s
    | p :: _ =>
      if s.acct.draining && !s.acct.running then
        { s with
           acct := { s.acct with
              running := true
              trace := s.acct.trace ++ [.hstart p] } }
      else s
  | .finishHandler =>
    match s.acct.queue with
    | [] => s
    | p :: rest =>
      if s.acct.running then
        { s with
           acct := { s.acct with
              running := false
              queue := rest
              trace := s.acct.trace ++ [.hfinish p] } }
      else s
  | .finishDrain =>
    if s.acct.queue.isEmpty && s.acct.draining && !s.acct.running then
      { s with acct := { s.acct with draining := false } }
    else s

/-- The client's initial queueing state: empty orderer, no queue, no
history. -/
def initQueueState : ClientQueueState :=
  ⟨⟨[], []⟩, ⟨[], false, false, [], []⟩, []⟩

/-- Runs a list of scheduler steps from the initial state. -/
def runQueue (sequentialProcessing : Bool) (steps : List QueueStep) : ClientQueueState :=
  steps.foldl (queueStep sequentialProcessing) initQueueState

/-- The trace of a fully serialized history: begin/settle pairs in order. -/
def pairTrace (done : List SyncPacket) : List HandlerEv :=
  done.flatMap (fun p => [HandlerEv.hstart p, HandlerEv.hfinish p])

/-- Checks that a handler trace is serialized: every handler settles before
the next one begins (at most the last handler may still be pending). -/
def isSerializedTrace : List HandlerEv → Bool
  | [] => true
  | .hstart p :: rest =>
    match rest with
    | [] => true
    | .hfinish q :: rest2 => p == q && isSerializedTrace rest2
    | _ => false
  | .hfinish _ :: _ => false

/-- The packets whose handlers began, in begin order. -/
def startsOf : List HandlerEv → List SyncPacket
  | [] => []
  | .hstart p :: rest => p :: startsOf rest
  | .hfinish _ :: rest => startsOf rest

/-- The queueing invariant: the queued packets so far split into a fully
processed part `done` (whose begin/settle pairs form the trace) and the
pending queue, with at most the queue head's handler begun but not settled;
and a non-draining account has an empty queue and no running handler. -/
def queueInv (s : ClientQueueState) : Prop :=
  (∃ done, s.acct.arrivals = done ++ s.acct.queue ∧
    ((s.acct.running = false ∧ s.acct.trace = pairTrace done) ∨
     (s.acct.running = true ∧ ∃ p rest, s.acct.queue = p :: rest ∧
      s.acct.trace = pairTrace done ++ [HandlerEv.hstart p]))) ∧
  (s.acct.draining = false → s.acct.queue = [] ∧ s.acct.running = false)

/-- Whether an effect is a listener `onDisconnected` notification. -/
def isOnDisconnectedEffect : Effect → Bool
  | .onDisconnected _ _ => true
  | _ => false

/-- Whether an effect is a listener `onStreamClosed` notification. -/
def isOnStreamClosedEffect : Effect → Bool
  | .onStreamClosed _ _ => true
  | _ => false

end MetaApiWebsocket

/-! ## Theorems -/

namespace MetaApiWebsocket

/-- Reading the key of an association list entry just written always yields
the new value. -/
theorem alGet_alSet {α β : Type} [DecidableEq α] (l : List (α × β)) (key : α) (v : β) :
    alGet (alSet l key v) key = some v := by
  induction l with
  | nil => simp [alGet, alSet]
  | cons kv rest ih =>
    by_cases h : kv.1 = key
    · simp [alSet, alGet, h]
    · simp only [alSet]
      rw [if_neg h]
      simp only [alGet]
      rw [if_neg h]
      exact ih

/-- A key absent from an association list's key list looks up to
`undefined`. -/
theorem alGet_not_mem_keys {α β : Type} [DecidableEq α] (l : List (α × β)) (key : α)
    (h : key ∉ l.map Prod.fst) : alGet l key = none := by
  induction l with
  | nil => rfl
  | cons kv rest ih =>
    simp only [List.map_cons, List.mem_cons, not_or] at h
    simp only [alGet]
    rw [if_neg (fun he => h.1 he.symm)]
    exact ih h.2

/-- With pairwise distinct keys (the JS-object invariant), deleting a key
makes its lookup yield `undefined`. -/
theorem alGet_alErase_self {α β : Type} [DecidableEq α] (l : List (α × β)) (key : α)
    (hnd : (l.map Prod.fst).Nodup) : alGet (alErase l key) key = none := by
  induction l with
  | nil => rfl
  | cons kv rest ih =>
    simp only [List.map_cons, List.nodup_cons] at hnd
    simp only [alErase]
    by_cases h : kv.1 = key
    · rw [if_pos h]
      subst h
      exact alGet_not_mem_keys rest kv.1 hnd.1
    · rw [if_neg h]
      simp only [alGet]
      rw [if_neg h]
      exact ih hnd.2

/-- Keys of `alSet l key v` are the written key or keys of `l`. Helper for
the association-list lemmas. -/
theorem alSet_mem_keys {α β : Type} [DecidableEq α] (l : List (α × β)) (key : α) (v : β)
    (a : α) (h : a ∈ (alSet l key v).map Prod.fst) :
    a = key ∨ a ∈ l.map Prod.fst := by
  induction l with
  | nil => simpa [alSet] using h
  | cons kv rest ih =>
    by_cases hk : kv.1 = key
    · simp only [alSet] at h
      rw [if_pos hk] at h
      simp only [List.map_cons, List.mem_cons] at h ⊢
      rcases h with h | h
      · exact Or.inl h
      · exact Or.inr (Or.inr h)
    · simp only [alSet] at h
      rw [if_neg hk] at h
      simp only [List.map_cons, List.mem_cons] at h ⊢
      rcases h with h | h
      · exact Or.inr (Or.inl h)
      · rcases ih h with h2 | h2
        · exact Or.inl h2
        · exact Or.inr (Or.inr h2)

/-- `alSet` never introduces new occurrences of other keys: key lists stay
pairwise distinct. -/
theorem alSet_keys_nodup {α β : Type} [DecidableEq α] (l : List (α × β)) (key : α) (v : β)
    (hnd : (l.map Prod.fst).Nodup) : ((alSet l key v).map Prod.fst).Nodup := by
  induction l with
  | nil => simp [alSet]
  | cons kv rest ih =>
    simp only [List.map_cons, List.nodup_cons] at hnd
    by_cases h : kv.1 = key
    · simp only [alSet]
      rw [if_pos h]
      simp only [List.map_cons, List.nodup_cons]
      exact ⟨by rw [← h]; exact hnd.1, hnd.2⟩
    · simp only [alSet]
      rw [if_neg h]
      simp only [List.map_cons, List.nodup_cons]
      refine ⟨?_, ih hnd.2⟩
      intro hmem
      rcases alSet_mem_keys rest key v kv.1 hmem with h2 | h2
      · exact h h2
      · exact hnd.1 h2

/-- One retry step of the transient branch (lines 1196-1201): a failure whose
error name is retryable, with retries left and the account still assigned,
sleeps the backoff delay and resends. Helper for the dispatcher theorems. -/
theorem rpcRequestLoop_transient_step (opts : RetryOpts) (assigned : Nat → Bool)
    (now : Int) (retryCounter : Nat) (o : AttemptOutcome) (rest : List AttemptOutcome)
    (ho : o ∈ transientOutcomes) (h2 : retryCounter < opts.retries)
    (h3 : assigned retryCounter = true) :
    rpcRequestLoop opts assigned now retryCounter (o :: rest) =
      let t := rpcRequestLoop opts assigned (now + (retryDelayMs opts retryCounter : Int))
        (retryCounter + 1) rest
      ⟨t.sends + 1, (retryDelayMs opts retryCounter : Int) :: t.sleepsMs, t.outcome⟩ := by
  fin_cases ho <;>
  · conv_lhs => unfold rpcRequestLoop
    simp only [makeRequestResult, convertError]
    rw [if_pos ⟨by decide, h2⟩, if_pos h3]

/-- A run of `n + 1` identical transient failures starting with `retryCounter`
retries consumed and `retryCounter + n = retries`: all `n` remaining retries
are consumed with their backoff sleeps and the error is surfaced. Helper for
the dispatcher theorems. -/
theorem rpcRequestLoop_transient_exhaust (opts : RetryOpts) (assigned : Nat → Bool)
    (o : AttemptOutcome) (e : ClientError) (ho : o ∈ transientOutcomes)
    (he : attemptError o = some e) (hassigned : ∀ k, assigned k = true) :
    ∀ n retryCounter now, retryCounter + n = opts.retries →
    rpcRequestLoop opts assigned now retryCounter (List.replicate (n + 1) o) =
      ⟨n + 1, (List.range n).map (fun i => (retryDelayMs opts (retryCounter + i) : Int)),
        .failed e⟩ := by
  intro n
  induction n with
  | zero =>
    intro retryCounter now hrc
    simp only [List.replicate, List.range_zero, List.map_nil]
    fin_cases ho <;>
    · simp only [attemptError, convertError, Option.some.injEq] at he
      subst he
      conv_lhs => unfold rpcRequestLoop
      simp only [makeRequestResult, convertError]
      rw [if_neg]
      omega
  | succ m ih =>
    intro retryCounter now hrc
    have hlt : retryCounter < opts.retries := by omega
    have step := rpcRequestLoop_transient_step opts assigned now retryCounter o
      (List.replicate (m + 1) o) ho hlt (hassigned retryCounter)
    rw [show List.replicate (m + 1 + 1) o = o :: List.replicate (m + 1) o from rfl, step]
    rw [ih (retryCounter + 1) (now + (retryDelayMs opts retryCounter : Int)) (by omega)]
    simp [List.range_succ_eq_map, List.map_map, Function.comp]
    intro a _
    congr 1
    omega

/-- Claim C1: for every rpc request whose type is `trade` or `subscribe`, the
dispatcher `_rpcRequest` sends the request exactly once and never retries it,
whatever the transport later does (`rest` is never consumed); it performs no
sleeps, and any error — the converted `processingError`, or the `TimeoutError`
produced when no response arrives within the configured timeout — settles the
returned promise directly. -/
theorem tradeAndSubscribeRequests_sentOnce_neverRetried (opts : RetryOpts)
    (assigned : Nat → Bool) (now : Int) (requestType : String)
    (o : AttemptOutcome) (rest : List AttemptOutcome)
    (h : requestType = "trade" ∨ requestType = "subscribe") :
    rpcRequest opts assigned now requestType (o :: rest) =
      ⟨1, [], match makeRequestResult o with
              | .ok _ => .ok
              | .error e => .failed e⟩ := by
  unfold rpcRequest
  rcases h with h | h <;> subst h <;> simp <;> cases o <;> rfl

/-- Witness for `tradeAndSubscribeRequests_sentOnce_neverRetried`: a `trade`
request that times out is sent once, never resent even though the transport
would have answered the second send, and fails with the `TimeoutError`. -/
theorem tradeAndSubscribeRequests_sentOnce_neverRetried_witness :
    rpcRequest defaultRetryOpts (fun _ => true) 0 "trade" [.timeoutFired, .response] =
      ⟨1, [], .failed .timeoutError⟩ :=
  tradeAndSubscribeRequests_sentOnce_neverRetried defaultRetryOpts (fun _ => true) 0 "trade"
    .timeoutFired [.response] (Or.inl rfl)

/-- Claim C2, counterexample: with `retries = 1` and `minRetryDelayInSeconds
= 1` the remaining budget at the first failure is 2000 ms. A recommended
retry time of exactly `now + budget` is not later than `now` plus the budget,
and a retry remains, so the claim demands a sleep-and-resend; the code
(`Date.now() + calcRequestTime > retryTime` is false at equality, line 1188)
fails immediately with the rate-limit error after a single send. -/
theorem tooManyRequests_budgetBoundary_counterexample :
    ¬ ((2000 : Int) > 0 + (calcRequestTime ⟨1, 1, 30⟩ 0 : Int)) ∧ (0 : Nat) < (1 : Nat) ∧
    rpcRequestLoop ⟨1, 1, 30⟩ (fun _ => true) 0 0
      [.processingError (.tooManyRequestsError 2000), .response] =
      ⟨1, [], .failed (.tooManyRequestsError 2000)⟩ := by decide

/-- Claim C2 as amended: on a `TooManyRequestsError` the dispatcher fails
immediately — without sleeping and after a single send — when the recommended
retry time is later than OR EQUAL TO the current time plus the remaining
retry budget, or when no retries remain; when the recommended retry time is
strictly earlier than now plus the budget and a retry remains, it sleeps
until the recommended retry time (not at all if that time has passed),
consumes exactly one retry, and resends the request. -/
theorem tooManyRequests_retryPolicy (opts : RetryOpts) (assigned : Nat → Bool)
    (now : Int) (retryCounter : Nat) (retryTime : Int) (rest : List AttemptOutcome) :
    (retryTime ≥ now + (calcRequestTime opts retryCounter : Int) ∨ opts.retries ≤ retryCounter →
      rpcRequestLoop opts assigned now retryCounter
        (.processingError (.tooManyRequestsError retryTime) :: rest) =
        ⟨1, [], .failed (.tooManyRequestsError retryTime)⟩) ∧
    (retryTime < now + (calcRequestTime opts retryCounter : Int) → retryCounter < opts.retries →
      assigned retryCounter = true →
      rpcRequestLoop opts assigned now retryCounter
        (.processingError (.tooManyRequestsError retryTime) :: rest) =
        let t := rpcRequestLoop opts assigned (max now retryTime) (retryCounter + 1) rest
        ⟨t.sends + 1, (if now < retryTime then [retryTime - now] else []) ++ t.sleepsMs,
          t.outcome⟩) := by
  constructor
  · intro h
    unfold rpcRequestLoop
    simp only [makeRequestResult, convertError]
    rw [if_neg]
    push_neg
    intro h2
    omega
  · intro h1 h2 h3
    have key : (if now < retryTime then retryTime else now) = max now retryTime := by
      rcases le_or_lt retryTime now with h | h
      · simp [not_lt.mpr h, max_eq_left h]
      · simp [h, max_eq_right h.le]
    conv_lhs => unfold rpcRequestLoop
    simp only [makeRequestResult, convertError]
    rw [if_pos ⟨by omega, h2⟩, if_pos h3, key]

/-- Witness for `tooManyRequests_retryPolicy`: a recommended retry time of
1999 ms lies strictly inside the 2000 ms budget, so the dispatcher sleeps
1999 ms, resends once, and succeeds; with all retries already consumed the
same error is surfaced immediately. -/
theorem tooManyRequests_retryPolicy_witness :
    rpcRequestLoop ⟨1, 1, 30⟩ (fun _ => true) 0 0
      [.processingError (.tooManyRequestsError 1999), .response] = ⟨2, [1999], .ok⟩ ∧
    rpcRequestLoop ⟨1, 1, 30⟩ (fun _ => true) 0 1
      [.processingError (.tooManyRequestsError 5000)] =
      ⟨1, [], .failed (.tooManyRequestsError 5000)⟩ := by
  constructor
  · have h := (tooManyRequests_retryPolicy ⟨1, 1, 30⟩ (fun _ => true) 0 0 1999 [.response]).2
      (by decide) (by decide) rfl
    exact h.trans (by decide)
  · exact (tooManyRequests_retryPolicy ⟨1, 1, 30⟩ (fun _ => true) 0 1 5000 []).1 (by decide)

/-- Claim C6, counterexample: a request failing with a server
`NotAuthenticatedError` is converted by `_convertError` to a
`NotConnectedError`, whose name is not in the dispatcher's retryable-name
list, so with all five default retries still available the dispatcher
surfaces it immediately after one send instead of retrying — the second
script entry, a success, is never reached. -/
theorem notAuthenticated_surfacedImmediately_counterexample :
    0 < defaultRetryOpts.retries ∧
    errName (convertError .notAuthenticatedError) ∉ retryableNames ∧
    rpcRequestLoop defaultRetryOpts (fun _ => true) 0 0
      [.processingError .notAuthenticatedError, .response] =
      ⟨1, [], .failed .notConnectedError⟩ := by decide

/-- Claim C6 as amended: for rpc requests other than `trade`/`subscribe`,
failures converting to `NotSynchronizedError`, `TimeoutError` (from the
server or from the local request timeout) or `InternalError` are retried with
a sleep of `min(2^attempt * minRetryDelayInSeconds, maxRetryDelayInSeconds)`
seconds before each retry, up to the configured retry count, the error being
surfaced only once retries are exhausted (provided the account stays
assigned); a server `NotAuthenticatedError` — converted to
`NotConnectedError` — as well as `ValidationError`, `NotFoundError` and
`TradeError` are surfaced immediately without any retry or sleep. -/
theorem transientRetryPolicy (opts : RetryOpts) (assigned : Nat → Bool) :
    (∀ (now : Int) retryCounter (o : AttemptOutcome) rest, o ∈ transientOutcomes →
      retryCounter < opts.retries → assigned retryCounter = true →
      rpcRequestLoop opts assigned now retryCounter (o :: rest) =
        let t := rpcRequestLoop opts assigned (now + (retryDelayMs opts retryCounter : Int))
          (retryCounter + 1) rest
        ⟨t.sends + 1, (retryDelayMs opts retryCounter : Int) :: t.sleepsMs, t.outcome⟩) ∧
    (∀ (o : AttemptOutcome) (e : ClientError), o ∈ transientOutcomes →
      attemptError o = some e → (∀ k, assigned k = true) → ∀ now : Int,
      rpcRequestLoop opts assigned now 0 (List.replicate (opts.retries + 1) o) =
        ⟨opts.retries + 1, (List.range opts.retries).map (fun i => (retryDelayMs opts i : Int)),
          .failed e⟩) ∧
    (∀ (now : Int) retryCounter (kind : ServerErrorKind) rest,
      kind ∈ [ServerErrorKind.validationError, .notFoundError, .tradeError,
        .notAuthenticatedError] →
      rpcRequestLoop opts assigned now retryCounter (.processingError kind :: rest) =
        ⟨1, [], .failed (convertError kind)⟩) := by
  refine ⟨?_, ?_, ?_⟩
  · intro now retryCounter o rest ho h2 h3
    exact rpcRequestLoop_transient_step opts assigned now retryCounter o rest ho h2 h3
  · intro o e ho he hassigned now
    have h := rpcRequestLoop_transient_exhaust opts assigned o e ho he hassigned
      opts.retries 0 now (by omega)
    simpa using h
  · intro now retryCounter kind rest hk
    fin_cases hk <;>
    · conv_lhs => unfold rpcRequestLoop
      simp only [makeRequestResult, convertError]
      rw [if_neg (fun h => absurd h.1 (by decide))]

/-- Witness for `transientRetryPolicy`: six consecutive `NotSynchronizedError`
failures under the default options consume all five retries with the
exponentially growing sleeps before surfacing the error; a `ValidationError`
with a success available on resend is surfaced after a single send. -/
theorem transientRetryPolicy_witness :
    rpcRequestLoop defaultRetryOpts (fun _ => true) 0 0
      (List.replicate 6 (.processingError .notSynchronizedError)) =
      ⟨6, [1000, 2000, 4000, 8000, 16000], .failed .notSynchronizedError⟩ ∧
    rpcRequestLoop defaultRetryOpts (fun _ => true) 0 0
      [.processingError .validationError, .response] =
      ⟨1, [], .failed .validationError⟩ := by
  constructor
  · have h := (transientRetryPolicy defaultRetryOpts (fun _ => true)).2.1
      (.processingError .notSynchronizedError) .notSynchronizedError (by decide) rfl
      (fun _ => rfl) 0
    exact h.trans (by decide)
  · exact (transientRetryPolicy defaultRetryOpts (fun _ => true)).2.2 0 0
      .validationError [.response] (by decide)

/-- Shifting the first-eligible-instance description across one list cell
whose instance is not eligible. Helper for the route-selection theorems. -/
theorem eligShift (now : Int) (maxAccounts : Nat) (ch : List (String × String))
    (ba : List (String × Nat)) (lock : Option SubscribeLock)
    (rest : List (Option SubscribeLock)) (s i : Nat)
    (helig : eligibleInstance now maxAccounts ch ba s lock = false) :
    (∃ k, k < rest.length ∧ i = s + 1 + k ∧
        eligibleInstance now maxAccounts ch ba (s + 1 + k) (rest.getD k none) = true ∧
        ∀ j < k, eligibleInstance now maxAccounts ch ba (s + 1 + j) (rest.getD j none) = false) ↔
    (∃ k, k < (lock :: rest).length ∧ i = s + k ∧
        eligibleInstance now maxAccounts ch ba (s + k) ((lock :: rest).getD k none) = true ∧
        ∀ j < k, eligibleInstance now maxAccounts ch ba (s + j) ((lock :: rest).getD j none)
          = false) := by
  constructor
  · rintro ⟨k, hk, hi, he, hall⟩
    refine ⟨k + 1, by simp only [List.length_cons]; omega, by omega, ?_, ?_⟩
    · rw [List.getD_cons_succ, show s + (k + 1) = s + 1 + k from by omega]
      exact he
    · intro j hj
      cases j with
      | zero => rw [List.getD_cons_zero, Nat.add_zero]; exact helig
      | succ j2 =>
        rw [List.getD_cons_succ, show s + (j2 + 1) = s + 1 + j2 from by omega]
        exact hall j2 (by omega)
  · rintro ⟨k, hk, hi, he, hall⟩
    cases k with
    | zero =>
      rw [List.getD_cons_zero, Nat.add_zero] at he
      rw [he] at helig
      exact absurd helig (by decide)
    | succ k2 =>
      refine ⟨k2, by simp only [List.length_cons] at hk; omega, by omega, ?_, ?_⟩
      · rw [List.getD_cons_succ] at he
        rw [show s + 1 + k2 = s + (k2 + 1) from by omega]
        exact he
      · intro j hj
        have h2 := hall (j + 1) (by omega)
        rw [List.getD_cons_succ] at h2
        rw [show s + 1 + j = s + (j + 1) from by omega]
        exact h2

/-- The route-selection loop returns exactly the first eligible index at or
after its start index. Helper for the route-selection theorems. -/
theorem routeSelectFrom_some_iff (now : Int) (maxAccounts : Nat) (ch : List (String × String))
    (ba : List (String × Nat)) :
    ∀ (locks : List (Option SubscribeLock)) (s i : Nat),
    routeSelectFrom now maxAccounts ch ba s locks = some i ↔
      ∃ k, k < locks.length ∧ i = s + k ∧
        eligibleInstance now maxAccounts ch ba (s + k) (locks.getD k none) = true ∧
        ∀ j < k, eligibleInstance now maxAccounts ch ba (s + j) (locks.getD j none) = false := by
  intro locks
  induction locks with
  | nil => intro s i; simp [routeSelectFrom]
  | cons lock rest ih =>
    intro s i
    unfold routeSelectFrom
    by_cases hskip : instanceSkipped now ch ba s lock = true
    · have helig : eligibleInstance now maxAccounts ch ba s lock = false := by
        simp [eligibleInstance, hskip]
      rw [if_pos hskip, ih (s + 1) i,
        ← eligShift now maxAccounts ch ba lock rest s i helig]
    · rw [if_neg hskip]
      by_cases hcount : (getAssignedAccounts ba s).length < maxAccounts
      · rw [if_pos hcount]
        have helig : eligibleInstance now maxAccounts ch ba s lock = true := by
          simp [eligibleInstance, hskip, hcount]
        constructor
        · intro h
          have hi : i = s := (Option.some_inj.mp h).symm
          refine ⟨0, by simp, by omega, ?_, by omega⟩
          rw [List.getD_cons_zero, Nat.add_zero]
          exact helig
        · rintro ⟨k, hk, hi, he, hall⟩
          cases k with
          | zero => simp [hi]
          | succ k2 =>
            have h0 := hall 0 (by omega)
            rw [List.getD_cons_zero, Nat.add_zero] at h0
            rw [h0] at helig
            exact absurd helig (by decide)
      · rw [if_neg hcount]
        have helig : eligibleInstance now maxAccounts ch ba s lock = false := by
          simp [eligibleInstance, hcount]
        rw [ih (s + 1) i, ← eligShift now maxAccounts ch ba lock rest s i helig]

/-- Claim C7, counterexample: one socket instance serving one subscribed
account holds a `LIMIT_ACCOUNT_SUBSCRIPTIONS_PER_USER_PER_SERVER` lock whose
recommended retry time (0) already passed (now = 1000). The skip rule as the
specification words it does not skip the instance (the lock has expired), and
the instance is under the account cap, so the claim says the instance is
eligible for assignment; the code nevertheless skips it (the subscribed count
has not dropped below the recorded count, and for this lock type the code
skips on EITHER condition), so route selection selects no instance. -/
theorem routeSelection_expiredLockStillSkipped_counterexample :
    specSkipRule 1000 (subscribedAccountIds [("x:0:h", "h")] [("x", 0)] (some 0)).length
        (some ⟨0, "LIMIT_ACCOUNT_SUBSCRIPTIONS_PER_USER_PER_SERVER", 1⟩) = false ∧
    (getAssignedAccounts [("x", 0)] 0).length < 100 ∧
    routeSelect 1000 100 [("x:0:h", "h")] [("x", 0)]
      [some ⟨0, "LIMIT_ACCOUNT_SUBSCRIPTIONS_PER_USER_PER_SERVER", 1⟩] = none := by decide

/-- Claim C7 as amended: when routing an account with no existing assignment
the dispatcher skips an instance with a `LIMIT_ACCOUNT_SUBSCRIPTIONS_PER_USER_PER_SERVER`
lock exactly when the lock has not expired OR the instance's
subscribed-account count has not dropped below the recorded count, and an
instance with a `LIMIT_ACCOUNT_SUBSCRIPTIONS_PER_SERVER` lock exactly when
the lock has not expired AND the count has not dropped; an unlocked instance
is never skipped, and the loop assigns the first non-skipped instance whose
assigned-account count is under the per-instance cap. -/
theorem routeSelection_lockSkipRule (now : Int) (maxAccounts : Nat)
    (ch : List (String × String)) (ba : List (String × Nat)) :
    (∀ (l : SubscribeLock) (index : Nat),
      instanceSkipped now ch ba index (some l) = true ↔
        (l.lockType = "LIMIT_ACCOUNT_SUBSCRIPTIONS_PER_USER_PER_SERVER" ∧
          (now < l.recommendedRetryTime ∨
            l.lockedAtAccounts ≤ (subscribedAccountIds ch ba (some index)).length)) ∨
        (l.lockType = "LIMIT_ACCOUNT_SUBSCRIPTIONS_PER_SERVER" ∧
          now < l.recommendedRetryTime ∧
          l.lockedAtAccounts ≤ (subscribedAccountIds ch ba (some index)).length)) ∧
    (∀ index, instanceSkipped now ch ba index none = false) ∧
    (∀ (locks : List (Option SubscribeLock)) (i : Nat),
      routeSelect now maxAccounts ch ba locks = some i ↔
        i < locks.length ∧
        eligibleInstance now maxAccounts ch ba i (locks.getD i none) = true ∧
        ∀ j < i, eligibleInstance now maxAccounts ch ba j (locks.getD j none) = false) := by
  refine ⟨?_, fun _ => rfl, ?_⟩
  · intro l index
    simp only [instanceSkipped, Bool.or_eq_true, Bool.and_eq_true, beq_iff_eq,
      decide_eq_true_eq, gt_iff_lt, ge_iff_le]
    tauto
  · intro locks i
    rw [routeSelect, routeSelectFrom_some_iff]
    constructor
    · rintro ⟨k, hk, hi, he, hall⟩
      have hik : i = k := by omega
      subst hik
      refine ⟨hk, by simpa using he, ?_⟩
      intro j hj
      simpa using hall j hj
    · rintro ⟨h1, h2, h3⟩
      exact ⟨i, h1, by omega, by simpa using h2, fun j hj => by simpa using h3 j hj⟩

/-- Witness for `routeSelection_lockSkipRule`: an instance with an expired
`LIMIT_ACCOUNT_SUBSCRIPTIONS_PER_SERVER` lock (where the code does require
both conditions) is eligible and gets selected. -/
theorem routeSelection_lockSkipRule_witness :
    routeSelect 1000 100 [("x:0:h", "h")] [("x", 0)]
      [some ⟨0, "LIMIT_ACCOUNT_SUBSCRIPTIONS_PER_SERVER", 1⟩] = some 0 :=
  ((routeSelection_lockSkipRule 1000 100 [("x:0:h", "h")] [("x", 0)]).2.2
    [some ⟨0, "LIMIT_ACCOUNT_SUBSCRIPTIONS_PER_SERVER", 1⟩] 0).mpr
    ⟨by decide, by decide, fun j hj => absurd hj (Nat.not_lt_zero j)⟩

/-- Claim C8: `close()` rejects every request pending on a connected socket
instance with a `'MetaApi connection closed'` error (and no others), empties
each connected instance's pending-request map, empties the
account-to-instance map and the socket instance list, removes all
synchronization and latency listeners, and stops the packet orderer. -/
theorem close_failsPendingRequests_clearsState (s : WebsocketClientState) :
    (close s).1.socketInstances = [] ∧
    (close s).1.socketInstancesByAccounts = [] ∧
    (close s).1.synchronizationListeners = [] ∧
    (close s).1.latencyListeners = [] ∧
    (close s).1.packetOrdererStarted = false ∧
    (close s).2 = (s.socketInstances.filter (fun i => i.connected)).flatMap
      (fun inst => inst.requestResolves.map (fun rid => ⟨rid, "MetaApi connection closed"⟩)) ∧
    ∀ inst ∈ s.socketInstances, inst.connected = true →
      (closeInstance inst).1.requestResolves = [] ∧
      (closeInstance inst).2 =
        inst.requestResolves.map (fun rid => ⟨rid, "MetaApi connection closed"⟩) := by
  refine ⟨rfl, rfl, rfl, rfl, rfl, ?_, ?_⟩
  · show s.socketInstances.flatMap (fun inst => (closeInstance inst).2) = _
    induction s.socketInstances with
    | nil => rfl
    | cons i rest ih =>
      rw [List.flatMap_cons, List.filter_cons, ih]
      by_cases h : i.connected = true
      · rw [if_pos (by simpa using h), List.flatMap_cons]
        congr 1
        simp [closeInstance, h]
      · rw [if_neg (by simpa using h)]
        simp [closeInstance, h]
  · intro inst _ hconn
    simp [closeInstance, hconn]

/-- Witness for `close_failsPendingRequests_clearsState`: a client with two
connected instances, the first holding two pending requests, rejects exactly
those two requests with the connection-closed error and empties the first
instance's pending map. -/
theorem close_failsPendingRequests_clearsState_witness :
    (close ⟨[⟨true, ["r1", "r2"], "sess"⟩, ⟨true, [], "sess2"⟩],
        [("a", 0)], [("a", [0])], [7], true⟩).2 =
      [⟨"r1", "MetaApi connection closed"⟩, ⟨"r2", "MetaApi connection closed"⟩] ∧
    (closeInstance ⟨true, ["r1", "r2"], "sess"⟩).1.requestResolves = [] := by
  have h := close_failsPendingRequests_clearsState
    ⟨[⟨true, ["r1", "r2"], "sess"⟩, ⟨true, [], "sess2"⟩], [("a", 0)], [("a", [0])], [7], true⟩
  refine ⟨?_, ?_⟩
  · rw [h.2.2.2.2.2.1]; decide
  · exact (h.2.2.2.2.2.2 ⟨true, ["r1", "r2"], "sess"⟩ (by decide) rfl).1

/-- Eliding an `if` on an optional flag defaulted to `true`: the `else`
branch runs exactly for an explicit `false`. Helper for the
`accountInformation` theorem. -/
theorem getD_true_if {α : Type} (o : Option Bool) (xs : List α) :
    (if o.getD true then ([] : List α) else xs) = (if o = some false then xs else []) := by
  cases o with
  | none => simp
  | some b => cases b <;> simp

/-- Claim C4, counterexample: account `a` has two connected streams,
`a:1:h1` (instance 1) and `a:10:h2` (instance 10). Stream `a:1:h1` is the
only active stream of account `a`, instance 1 — no replica of instance 1
exists — so the claim requires listeners to receive `onDisconnected` when its
`disconnected` packet arrives. But `isOnlyActiveInstance` matches
connected-host keys by the bare prefix `a:1` (no trailing separator), which
also matches `a:10:h2`, so the code takes the replica branch: listeners
receive `onStreamClosed` and no `onDisconnected` is fired. -/
theorem disconnected_prefixCollision_counterexample :
    ((([("a:1:h1", some "h1"), ("a:10:h2", some "h2")] :
        List (String × Option String)).map Prod.fst).filter
      (fun k => strStartsWith k "a:1:") = ["a:1:h1"]) ∧
    (processSynchronizationPacket ⟨[("a:1:h1", some "h1"), ("a:10:h2", some "h2")], [],
        [("a", [0])]⟩ (some "sess")
      ⟨"disconnected", "a", some 1, some "h1", none, none, none, none, false, none, none,
        none⟩).2.filter isOnDisconnectedEffect = [] ∧
    (processSynchronizationPacket ⟨[("a:1:h1", some "h1"), ("a:10:h2", some "h2")], [],
        [("a", [0])]⟩ (some "sess")
      ⟨"disconnected", "a", some 1, some "h1", none, none, none, none, false, none, none,
        none⟩).2.filter isOnStreamClosedEffect = [.onStreamClosed 0 "1:h1"] := by decide

/-- Claim C4 as amended: when the 60-second silence timer fires or an
explicit `disconnected` packet arrives for a connected stream
`(accountId, instanceNumber, host)`: if the stream's key is the only
connected-host key starting with the text `accountId:instanceNumber` (a bare
string-prefix test, which for multi-digit instance numbers can also match
other instances sharing that decimal prefix), every registered listener
receives `onDisconnected` — the subscription manager being additionally
notified of the timeout in the silence-timeout case and of the disconnect in
the packet case; otherwise listeners receive `onStreamClosed` instead of
`onDisconnected`, and only that stream's packet-orderer and
synchronization-throttler state is dropped. In all cases the stream's
connected-host entry is removed. -/
theorem streamDisconnect_replicaAware (st : ProcessorState) (sess : Option String)
    (pkt : SyncPacket) (htype : pkt.ptype = "disconnected")
    (hconn : ∃ h, alGet st.connectedHosts (instanceIdOf pkt) = some (some h)) :
    (isOnlyActiveInstance st pkt.accountId (instanceNumberOf pkt) (instanceIdOf pkt) = true →
      processSynchronizationPacket st sess pkt =
        ({ st with connectedHosts := alErase st.connectedHosts (instanceIdOf pkt) },
         [.cancelDisconnectTimer (instanceIdOf pkt),
          .subscriptionOnDisconnected pkt.accountId (instanceNumberOf pkt)] ++
           (listenersFor st pkt.accountId).map
             (fun l => .onDisconnected l (instanceIndexStrOf pkt)))) ∧
    (isOnlyActiveInstance st pkt.accountId (instanceNumberOf pkt) (instanceIdOf pkt) = false →
      processSynchronizationPacket st sess pkt =
        ({ st with connectedHosts := alErase st.connectedHosts (instanceIdOf pkt) },
         [.cancelDisconnectTimer (instanceIdOf pkt),
          .packetOrdererStreamClosed (instanceIdOf pkt)] ++
           (if sess.isSome then
             [.throttlerRemoveId pkt.accountId (instanceNumberOf pkt) pkt.host] else []) ++
           (listenersFor st pkt.accountId).map
             (fun l => .onStreamClosed l (instanceIndexStrOf pkt)))) ∧
    (isOnlyActiveInstance st pkt.accountId (instanceNumberOf pkt) (instanceIdOf pkt) = true →
      silenceTimerFired st sess pkt.accountId (instanceNumberOf pkt) pkt.host =
        ({ st with connectedHosts := alErase st.connectedHosts (instanceIdOf pkt) },
         [.subscriptionOnTimeout pkt.accountId (instanceNumberOf pkt)] ++
           (listenersFor st pkt.accountId).map
             (fun l => .onDisconnected l (instanceIndexStrOf pkt)))) ∧
    (isOnlyActiveInstance st pkt.accountId (instanceNumberOf pkt) (instanceIdOf pkt) = false →
      silenceTimerFired st sess pkt.accountId (instanceNumberOf pkt) pkt.host =
        ({ st with connectedHosts := alErase st.connectedHosts (instanceIdOf pkt) },
         [.packetOrdererStreamClosed (instanceIdOf pkt)] ++
           (if sess.isSome then
             [.throttlerRemoveId pkt.accountId (instanceNumberOf pkt) pkt.host] else []) ++
           (listenersFor st pkt.accountId).map
             (fun l => .onStreamClosed l (instanceIndexStrOf pkt)))) := by
  obtain ⟨h, hh⟩ := hconn
  have hid : (pkt.accountId ++ ":" ++ toString (instanceNumberOf pkt) ++ ":" ++
      pkt.host.getD "0") = instanceIdOf pkt := rfl
  refine ⟨?_, ?_, ?_, ?_⟩
  · intro honly
    simp only [processSynchronizationPacket, htype]
    rw [if_pos trivial]
    simp only [processDisconnected, onDisconnectedHelper, hid, hh, honly, if_true]
    rfl
  · intro honly
    simp only [processSynchronizationPacket, htype]
    rw [if_pos trivial]
    simp only [processDisconnected, onDisconnectedHelper, hid, hh, honly]
    rfl
  · intro honly
    simp only [silenceTimerFired, onDisconnectedHelper, hid, hh, honly, if_true]
    rfl
  · intro honly
    simp only [silenceTimerFired, onDisconnectedHelper, hid, hh, honly]
    rfl

/-- Witness for `streamDisconnect_replicaAware`: with a single connected
stream `a:1:h1`, its `disconnected` packet cancels the timer, notifies the
subscription manager of the disconnect, fires `onDisconnected` to the one
registered listener and removes the connected-host entry. -/
theorem streamDisconnect_replicaAware_witness :
    processSynchronizationPacket ⟨[("a:1:h1", some "h1")], [], [("a", [0])]⟩ (some "sess")
      ⟨"disconnected", "a", some 1, some "h1", none, none, none, none, false, none, none,
        none⟩ =
      (⟨[], [], [("a", [0])]⟩,
       [.cancelDisconnectTimer "a:1:h1", .subscriptionOnDisconnected "a" 1,
        .onDisconnected 0 "1:h1"]) := by
  have h := (streamDisconnect_replicaAware ⟨[("a:1:h1", some "h1")], [], [("a", [0])]⟩
    (some "sess")
    ⟨"disconnected", "a", some 1, some "h1", none, none, none, none, false, none, none, none⟩
    rfl ⟨"h1", by decide⟩).1 (by decide)
  exact h.trans (by decide)

/-- Claim C5: an `authenticated` packet marks the
`(accountId, instanceNumber, host)` stream connected, invokes every
registered listener's `onConnected` with the replica count, and cancels the
pending subscribe retry for the key, if and only if the packet carries no
`sessionId` or its `sessionId` equals the owning socket instance's current
session id; a packet whose `sessionId` differs produces none of these effects
(the disconnect timer reset, which the code performs before the session
check, is the only effect either way). -/
theorem authenticated_sessionScoped (st : ProcessorState) (sess : String) (pkt : SyncPacket)
    (htype : pkt.ptype = "authenticated") :
    (pkt.sessionId = none ∨ pkt.sessionId = some sess →
      processSynchronizationPacket st (some sess) pkt =
        ({ st with connectedHosts := alSet st.connectedHosts (instanceIdOf pkt) pkt.host },
         [.resetDisconnectTimer (instanceIdOf pkt)] ++
           (listenersFor st pkt.accountId).map
             (fun l => .onConnected l (instanceIndexStrOf pkt) pkt.replicas) ++
           [.cancelSubscribe (pkt.accountId ++ ":" ++ toString (instanceNumberOf pkt))])) ∧
    (pkt.sessionId ≠ none → pkt.sessionId ≠ some sess →
      processSynchronizationPacket st (some sess) pkt =
        (st, [.resetDisconnectTimer (instanceIdOf pkt)])) := by
  constructor
  · intro hcond
    simp only [processSynchronizationPacket, htype]
    rw [if_pos trivial]
    simp only [processAuthenticated]
    rw [if_pos]
    rcases hcond with h | h
    · exact Or.inl h
    · exact Or.inr ⟨rfl, h⟩
  · intro hne hmismatch
    simp only [processSynchronizationPacket, htype]
    rw [if_pos trivial]
    simp only [processAuthenticated]
    rw [if_neg]
    push_neg
    exact ⟨hne, fun _ => hmismatch⟩

/-- Witness for `authenticated_sessionScoped`: a packet whose session id
mismatches only resets the timer and changes nothing, while a matching one
marks the stream connected, fires `onConnected` with the replica count and
cancels the pending subscribe retry. -/
theorem authenticated_sessionScoped_witness :
    processSynchronizationPacket ⟨[], [], [("a", [0])]⟩ (some "sess")
      ⟨"authenticated", "a", some 1, some "h1", some "bad", some 2, none, none, false, none,
        none, none⟩ =
      (⟨[], [], [("a", [0])]⟩, [.resetDisconnectTimer "a:1:h1"]) ∧
    processSynchronizationPacket ⟨[], [], [("a", [0])]⟩ (some "sess")
      ⟨"authenticated", "a", some 1, some "h1", some "sess", some 2, none, none, false, none,
        none, none⟩ =
      (⟨[("a:1:h1", some "h1")], [], [("a", [0])]⟩,
       [.resetDisconnectTimer "a:1:h1", .onConnected 0 "1:h1" (some 2),
        .cancelSubscribe "a:1"]) := by
  constructor
  · have h := (authenticated_sessionScoped ⟨[], [], [("a", [0])]⟩ "sess"
      ⟨"authenticated", "a", some 1, some "h1", some "bad", some 2, none, none, false, none,
        none, none⟩ rfl).2 (by decide) (by decide)
    exact h.trans (by decide)
  · have h := (authenticated_sessionScoped ⟨[], [], [("a", [0])]⟩ "sess"
      ⟨"authenticated", "a", some 1, some "h1", some "sess", some 2, none, none, false, none,
        none, none⟩ rfl).1 (Or.inr rfl)
    exact h.trans (by decide)

/-- Claim C9: after a `synchronizationStarted` packet records its flags, an
`accountInformation` packet carrying account information gives each listener
`onAccountInformationUpdated` first, then `onPositionsSynchronized` exactly
when the started packet carried `positionsUpdated: false`, then
`onPendingOrdersSynchronized` exactly when it carried `ordersUpdated: false`
(omitted fields default to `true` and yield no extra events); afterwards the
recorded flags for that synchronization id are discarded. The `Nodup`
hypothesis is the JS-object invariant that `_synchronizationFlags` has no
duplicate keys. -/
theorem accountInformation_elidedSynchronizedEvents (st : ProcessorState)
    (sess : Option String) (started pkt : SyncPacket)
    (hnd : (st.synchronizationFlags.map Prod.fst).Nodup)
    (h1 : started.ptype = "synchronizationStarted")
    (h2 : pkt.ptype = "accountInformation")
    (h3 : pkt.hasAccountInformation = true)
    (h4 : pkt.synchronizationId = started.synchronizationId) :
    (processSynchronizationPacket (processSynchronizationPacket st sess started).1 sess pkt).2 =
      (listenersFor st pkt.accountId).flatMap (fun l =>
        [Effect.onAccountInformationUpdated l (instanceIndexStrOf pkt)] ++
          (if started.positionsUpdated = some false then
            [Effect.onPositionsSynchronized l pkt.synchronizationId] else []) ++
          (if started.ordersUpdated = some false then
            [Effect.onPendingOrdersSynchronized l pkt.synchronizationId] else [])) ∧
    alGet (processSynchronizationPacket (processSynchronizationPacket st sess started).1 sess
        pkt).1.synchronizationFlags pkt.synchronizationId = none := by
  have hred1 : processSynchronizationPacket st sess started =
      processSynchronizationStarted st started := by
    simp only [processSynchronizationPacket, h1]
    rw [if_neg (by decide), if_neg (by decide), if_pos trivial]
  have hred2 : ∀ st2 : ProcessorState, processSynchronizationPacket st2 sess pkt =
      processAccountInformation st2 pkt := by
    intro st2
    simp only [processSynchronizationPacket, h2]
    rw [if_neg (by decide), if_neg (by decide), if_neg (by decide), if_pos trivial]
  rw [hred1, hred2]
  simp only [processSynchronizationStarted, processAccountInformation]
  rw [if_pos h3]
  constructor
  · simp only [h4, alGet_alSet, getD_true_if, List.append_assoc]
    rfl
  · simp only [h4]
    exact alGet_alErase_self _ _ (alSet_keys_nodup _ _ _ hnd)

/-- Witness for `accountInformation_elidedSynchronizedEvents`: a started
packet with `positionsUpdated: false` and `ordersUpdated` omitted makes the
following `accountInformation` packet emit, per listener, the account update
followed by `onPositionsSynchronized` only. -/
theorem accountInformation_elidedSynchronizedEvents_witness :
    (processSynchronizationPacket (processSynchronizationPacket ⟨[], [], [("a", [0, 1])]⟩ none
      ⟨"synchronizationStarted", "a", some 1, some "h1", none, none, some "s1", none, false,
        some false, none, none⟩).1 none
      ⟨"accountInformation", "a", some 1, some "h1", none, none, some "s1", none, true, none,
        none, none⟩).2 =
      [.onAccountInformationUpdated 0 "1:h1", .onPositionsSynchronized 0 (some "s1"),
       .onAccountInformationUpdated 1 "1:h1", .onPositionsSynchronized 1 (some "s1")] := by
  have h := (accountInformation_elidedSynchronizedEvents ⟨[], [], [("a", [0, 1])]⟩ none
    ⟨"synchronizationStarted", "a", some 1, some "h1", none, none, some "s1", none, false,
      some false, none, none⟩
    ⟨"accountInformation", "a", some 1, some "h1", none, none, some "s1", none, true, none,
      none, none⟩ (by decide) rfl rfl rfl rfl).1
  exact h.trans (by decide)

/-- The initial queueing state satisfies the queue invariant. -/
theorem queueInv_init : queueInv initQueueState :=
  ⟨⟨[], rfl, Or.inl ⟨rfl, rfl⟩⟩, fun _ => ⟨rfl, rfl⟩⟩

/-- `pairTrace` distributes over append. Helper for the queueing theorems. -/
theorem pairTrace_append (a b : List SyncPacket) :
    pairTrace (a ++ b) = pairTrace a ++ pairTrace b := by
  simp [pairTrace]

/-- Every scheduler step preserves the queue invariant. -/
theorem queueStep_preserves (seq : Bool) (s : ClientQueueState) (st : QueueStep)
    (hinv : queueInv s) : queueInv (queueStep seq s st) := by
  obtain ⟨⟨done, harr, hcase⟩, hdrain⟩ := hinv
  cases st with
  | arrive pkt =>
    simp only [queueStep, queuePacket]
    by_cases hc : seq = true ∧ ¬pkt.sequenceNumber = none
    · rw [if_pos hc]
      by_cases hd : s.acct.draining = true
      · rw [if_pos hd]
        refine ⟨⟨done, ?_, ?_⟩, ?_⟩
        · simp only [harr, List.append_assoc]
        · rcases hcase with ⟨hr, ht⟩ | ⟨hr, p, rest, hq, ht⟩
          · exact Or.inl ⟨hr, ht⟩
          · refine Or.inr ⟨hr, p, rest ++ (restoreOrder s.orderer pkt).2.filter
              (fun p => decide ¬p.ptype = "noop"), ?_, ht⟩
            simp [hq]
        · intro hdf
          simp only at hdf
          exact absurd hdf (by simp [hd])
      · rw [if_neg hd]
        have hd2 : s.acct.draining = false := by
          cases h : s.acct.draining
          · rfl
          · exact absurd h hd
        have hqe := (hdrain hd2).1
        refine ⟨⟨done, ?_, ?_⟩, ?_⟩
        · simp only
          rw [harr, hqe]
          simp
        · refine Or.inl ⟨by simp [(hdrain hd2).2], ?_⟩
          rcases hcase with ⟨_, ht⟩ | ⟨hr2, _⟩
          · simpa using ht
          · rw [(hdrain hd2).2] at hr2; cases hr2
        · intro hdf
          simp only at hdf
          cases hdf
    · rw [if_neg hc]
      exact ⟨⟨done, harr, hcase⟩, hdrain⟩
  | startHandler =>
    cases hq : s.acct.queue with
    | nil =>
      have heq : queueStep seq s .startHandler = s := by
        simp [queueStep, hq]
      rw [heq]
      exact ⟨⟨done, harr, hcase⟩, hdrain⟩
    | cons p rest =>
      by_cases hg : s.acct.draining = true ∧ s.acct.running = false
      · have heq : queueStep seq s .startHandler =
            { s with
               acct := { s.acct with
                  running := true
                  trace := s.acct.trace ++ [.hstart p] } } := by
          simp [queueStep, hq, hg.1, hg.2]
        rw [heq]
        refine ⟨⟨done, by simpa [hq] using harr, ?_⟩, ?_⟩
        · refine Or.inr ⟨rfl, p, rest, by simpa using hq, ?_⟩
          rcases hcase with ⟨_, ht⟩ | ⟨hr2, _⟩
          · simp [ht]
          · rw [hg.2] at hr2; cases hr2
        · intro hdf
          simp only at hdf
          rw [hg.1] at hdf; cases hdf
      · have heq : queueStep seq s .startHandler = s := by
          simp only [queueStep, hq]
          rw [if_neg]
          simp only [Bool.and_eq_true, Bool.not_eq_true']
          intro h
          exact hg ⟨h.1, h.2⟩
        rw [heq]
        exact ⟨⟨done, harr, hcase⟩, hdrain⟩
  | finishHandler =>
    cases hq : s.acct.queue with
    | nil =>
      have heq : queueStep seq s .finishHandler = s := by
        simp [queueStep, hq]
      rw [heq]
      exact ⟨⟨done, harr, hcase⟩, hdrain⟩
    | cons p rest =>
      by_cases hr : s.acct.running = true
      · have heq : queueStep seq s .finishHandler =
            { s with
               acct := { s.acct with
                  running := false
                  queue := rest
                  trace := s.acct.trace ++ [.hfinish p] } } := by
          simp [queueStep, hq, hr]
        rw [heq]
        rcases hcase with ⟨hr2, _⟩ | ⟨_, p2, rest2, hq2, ht⟩
        · rw [hr] at hr2; cases hr2
        · rw [hq] at hq2
          injection hq2 with h1 h2
          subst h1
          subst h2
          refine ⟨⟨done ++ [p], ?_, Or.inl ⟨rfl, ?_⟩⟩, ?_⟩
          · simp only
            rw [harr, hq]
            simp
          · simp only
            rw [ht, pairTrace_append]
            simp [pairTrace]
          · intro hdf
            simp only at hdf
            have h3 := (hdrain hdf).1
            rw [hq] at h3
            cases h3
      · have heq : queueStep seq s .finishHandler = s := by
          simp only [queueStep, hq]
          rw [if_neg]
          simpa using hr
        rw [heq]
        exact ⟨⟨done, harr, hcase⟩, hdrain⟩
  | finishDrain =>
    by_cases hg : s.acct.queue.isEmpty = true ∧ s.acct.draining = true ∧
        s.acct.running = false
    · have hq : s.acct.queue = [] := by
        cases h : s.acct.queue
        · rfl
        · rw [h] at hg; simp [List.isEmpty] at hg
      have heq : queueStep seq s .finishDrain =
          { s with acct := { s.acct with draining := false } } := by
        simp [queueStep, hg.1, hg.2.1, hg.2.2]
      rw [heq]
      refine ⟨⟨done, by simpa using harr, ?_⟩, fun _ => ⟨by simpa using hq, by
        simpa using hg.2.2⟩⟩
      rcases hcase with ⟨hr2, ht⟩ | ⟨hr2, _⟩
      · exact Or.inl ⟨by simpa using hr2, by simpa using ht⟩
      · rw [hg.2.2] at hr2; cases hr2
    · have heq : queueStep seq s .finishDrain = s := by
        simp only [queueStep]
        rw [if_neg]
        simp only [Bool.and_eq_true, Bool.not_eq_true']
        intro h
        exact hg ⟨h.1.1, h.1.2, h.2⟩
      rw [heq]
      exact ⟨⟨done, harr, hcase⟩, hdrain⟩

/-- The queue invariant holds along any scheduler run. -/
theorem queueInv_run (seq : Bool) : ∀ (steps : List QueueStep) (s : ClientQueueState),
    queueInv s → queueInv (steps.foldl (queueStep seq) s)
  | [], _, h => h
  | st :: rest, s, h => queueInv_run seq rest _ (queueStep_preserves seq s st h)

/-- A fully paired trace is serialized. -/
theorem isSerializedTrace_pairTrace (done : List SyncPacket) :
    isSerializedTrace (pairTrace done) = true := by
  induction done with
  | nil => rfl
  | cons p rest ih => simpa [pairTrace, isSerializedTrace] using ih

/-- A paired trace followed by one pending begin is serialized. -/
theorem isSerializedTrace_pairTrace_start (done : List SyncPacket) (p : SyncPacket) :
    isSerializedTrace (pairTrace done ++ [HandlerEv.hstart p]) = true := by
  induction done with
  | nil => rfl
  | cons q rest ih => simpa [pairTrace, isSerializedTrace] using ih

/-- The begins of a paired trace are its packets. -/
theorem startsOf_pairTrace (done : List SyncPacket) : startsOf (pairTrace done) = done := by
  induction done with
  | nil => rfl
  | cons p rest ih => simpa [pairTrace, startsOf] using ih

/-- The begins of a paired trace with one pending begin. -/
theorem startsOf_pairTrace_start (done : List SyncPacket) (p : SyncPacket) :
    startsOf (pairTrace done ++ [HandlerEv.hstart p]) = done ++ [p] := by
  induction done with
  | nil => rfl
  | cons q rest ih => simpa [pairTrace, startsOf] using ih

/-- Claim C3: with sequential event processing enabled, whatever order the
scheduler interleaves packet arrivals and handler progress in, the per-account
handler trace is serialized — a handler begins only after the previous
handler's promise settled, never overlapping — and handlers begin exactly in
queue (arrival) order: the begun packets are a prefix of the queued
arrivals. A packet without a sequence number bypasses the queue entirely:
the queue state is untouched and its (non-noop) packets are processed
immediately. -/
theorem sequentialEventQueue_serializedInArrivalOrder :
    (∀ steps : List QueueStep,
      isSerializedTrace (runQueue true steps).acct.trace = true ∧
      ∃ rest, (runQueue true steps).acct.arrivals =
        startsOf (runQueue true steps).acct.trace ++ rest) ∧
    (∀ (ord : OrdererState) (s : AccountQueueState) (pkt : SyncPacket),
      pkt.sequenceNumber = none →
      queuePacket true ord s pkt =
        ((restoreOrder ord pkt).1, s,
         (restoreOrder ord pkt).2.filter (fun p => p.ptype ≠ "noop"))) := by
  constructor
  · intro steps
    have hinv := queueInv_run true steps initQueueState queueInv_init
    rw [← runQueue] at hinv
    obtain ⟨⟨done, harr, hcase⟩, _⟩ := hinv
    rcases hcase with ⟨_, ht⟩ | ⟨_, p, rest, hq, ht⟩
    · rw [ht]
      exact ⟨isSerializedTrace_pairTrace done,
        ⟨(runQueue true steps).acct.queue, by rw [startsOf_pairTrace]; exact harr⟩⟩
    · rw [ht]
      refine ⟨isSerializedTrace_pairTrace_start done p, ⟨rest, ?_⟩⟩
      rw [startsOf_pairTrace_start, harr, hq]
      simp
  · intro ord s pkt hseq
    simp [queuePacket, hseq]

/-- Witness for `sequentialEventQueue_serializedInArrivalOrder`: a `prices`
packet without a sequence number leaves the (empty) queue untouched and is
processed immediately. -/
theorem sequentialEventQueue_serializedInArrivalOrder_witness :
    queuePacket true ⟨[], []⟩ ⟨[], false, false, [], []⟩
      ⟨"prices", "a", some 1, some "h", none, none, none, none, false, none, none, none⟩ =
      (⟨[], []⟩, ⟨[], false, false, [], []⟩,
       [⟨"prices", "a", some 1, some "h", none, none, none, none, false, none, none,
         none⟩]) := by
  have h := sequentialEventQueue_serializedInArrivalOrder.2 ⟨[], []⟩
    ⟨[], false, false, [], []⟩
    ⟨"prices", "a", some 1, some "h", none, none, none, none, false, none, none, none⟩ rfl
  exact h.trans (by decide)

/-- Claim C10: a synchronization packet whose synchronization id is not in
the owning instance throttler's active id list is relabelled to type `noop`
by the `synchronization` handler before queueing; and `queuePacket` filters
`noop`-typed packets out of both the immediately-processed list and the
per-account event queue (which stays `noop`-free), so no
`_processSynchronizationPacket` run — and hence no synchronization listener
invocation — ever happens for such a packet. -/
theorem inactiveSynchronizationId_yieldsNoEvents :
    (∀ (activeIds : List String) (pkt : SyncPacket) (sid : String),
      pkt.synchronizationId = some sid → sid ∉ activeIds →
      (markPacket activeIds pkt).ptype = "noop") ∧
    (∀ (seq : Bool) (ord : OrdererState) (s : AccountQueueState) (pkt : SyncPacket),
      (∀ q ∈ (queuePacket seq ord s pkt).2.2, q.ptype ≠ "noop") ∧
      ((∀ q ∈ s.queue, q.ptype ≠ "noop") →
        ∀ q ∈ (queuePacket seq ord s pkt).2.1.queue, q.ptype ≠ "noop")) := by
  constructor
  · intro activeIds pkt sid hsid hnot
    simp [markPacket, hsid, hnot]
  · intro seq ord s pkt
    constructor
    · intro q hq
      simp only [queuePacket] at hq
      by_cases hc : seq = true ∧ ¬pkt.sequenceNumber = none
      · rw [if_pos hc] at hq
        by_cases hd : s.draining = true
        · rw [if_pos hd] at hq
          simp at hq
        · rw [if_neg hd] at hq
          simp at hq
      · rw [if_neg hc] at hq
        have h2 := List.mem_filter.mp hq
        simpa using h2.2
    · intro hqinv q hq
      simp only [queuePacket] at hq
      by_cases hc : seq = true ∧ ¬pkt.sequenceNumber = none
      · rw [if_pos hc] at hq
        by_cases hd : s.draining = true
        · rw [if_pos hd] at hq
          simp only at hq
          rcases List.mem_append.mp hq with h | h
          · exact hqinv q h
          · have h2 := List.mem_filter.mp h
            simpa using h2.2
        · rw [if_neg hd] at hq
          simp only at hq
          have h2 := List.mem_filter.mp hq
          simpa using h2.2
      · rw [if_neg hc] at hq
        exact hqinv q hq

/-- Witness for `inactiveSynchronizationId_yieldsNoEvents`: an `orders`
packet with the stale synchronization id `stale` (active list `[active1]`)
is relabelled to `noop`, and queueing it leaves the event queue free of
`noop` packets. -/
theorem inactiveSynchronizationId_yieldsNoEvents_witness :
    (markPacket ["active1"]
      ⟨"orders", "a", some 1, some "h", none, none, some "stale", some 3, false, none, none,
        none⟩).ptype = "noop" ∧
    (∀ q ∈ (queuePacket true ⟨[], []⟩ ⟨[], false, false, [], []⟩
      (markPacket ["active1"]
        ⟨"orders", "a", some 1, some "h", none, none, some "stale", some 3, false, none, none,
          none⟩)).2.1.queue, q.ptype ≠ "noop") := by
  refine ⟨inactiveSynchronizationId_yieldsNoEvents.1 ["active1"] _ "stale" rfl (by decide), ?_⟩
  exact (inactiveSynchronizationId_yieldsNoEvents.2 true ⟨[], []⟩
    ⟨[], false, false, [], []⟩ _).2 (by simp)

end MetaApiWebsocket
